import Mathlib

/-!
Formal model of the Role-Based-Access-Control RAG chatbot backend
(`backend/app/rag_pipeline.py`, `backend/app/data_loader.py`,
`backend/app/auth.py`), as a shallow embedding in Lean.

Conventions of the embedding:
* Python dicts with string keys become association lists, with `dictGet`
  mirroring `dict.get(key, default)`.
* The Chroma vector store becomes a list of stored chunks, each carrying an
  internal id, a document (text plus metadata) and an embedding vector.
  Metadata-filtered similarity search is modelled as: restrict the collection
  to the chunks whose metadata passes the filter, order by squared L2
  distance to the query vector (ascending distance = descending similarity,
  ties broken by internal id), and take the first k.
* The embedding model and the LLM generator are external services invoked by
  the pipeline; they appear as function parameters.
* File-system walking (`os.walk`) is modelled over a directory tree; the
  per-file loaders (PyPDFLoader, CSVLoader, the markdown read) are external
  parsers whose outcome for each concrete file is recorded in the file entry
  as an `Except` value; a Python exception is the `Except.error` case and
  propagates exactly where the source has no handler.
-/

/-- Python `filename.endswith(suffix)`, written over the character lists so
that it evaluates by kernel reduction. -/
def strEndsWith (s suffix : String) : Bool :=
  suffix.data.isSuffixOf s.data

/-- Metadata carried by a document or chunk: the `role` tag and `source`. -/
structure DocMeta where
  role : String
  source : String
deriving DecidableEq, Repr

/-- A langchain `Document`: page content plus metadata. -/
structure Document where
  text : String
  metadata : DocMeta
deriving DecidableEq, Repr

/-- `ROLE_ACCESS_MAPPING` from `rag_pipeline.py`: maps user roles to the data
roles they are allowed to access. -/
def ROLE_ACCESS_MAPPING : List (String × List String) :=
  [("c_level", ["c_level", "engineering", "marketing", "finance", "hr", "general"]),
   ("engineering", ["engineering", "general"]),
   ("marketing", ["marketing", "general"]),
   ("finance", ["finance", "general"]),
   ("hr", ["hr", "general"]),
   ("employee", ["general"])]

/-- Python `mapping.get(key, [])` on a string-keyed dict of lists. -/
def dictGet (m : List (String × List String)) (k : String) : List String :=
  match m.find? (fun p => p.1 == k) with
  | some p => p.2
  | none => []

/-- The keys of an association list (the roles the mapping knows). -/
def mapKeys (m : List (String × List String)) : List String :=
  m.map Prod.fst

/-- The content roles established by the mapping: every role name that occurs
in some accessible list. -/
def knownContentRoles : List String :=
  (ROLE_ACCESS_MAPPING.map Prod.snd).flatten

/-- A record persisted in the Chroma collection: an internal id, the document
and its embedding vector. -/
structure StoredChunk where
  id : Nat
  doc : Document
  vector : List Int
deriving DecidableEq, Repr

/-- Squared L2 distance between two vectors (Chroma default space). -/
def l2sq (v w : List Int) : Int :=
  ((v.zip w).map (fun p => (p.1 - p.2) ^ 2)).sum

/-- Ranking order used by the similarity search: ascending squared distance to
the query vector (that is, descending similarity), ties broken
deterministically by the internal chunk id. -/
def chunkOrder (qv : List Int) (a b : StoredChunk) : Prop :=
  l2sq qv a.vector < l2sq qv b.vector ∨
    (l2sq qv a.vector = l2sq qv b.vector ∧ a.id ≤ b.id)

instance (qv : List Int) : DecidableRel (chunkOrder qv) := fun a b => by
  unfold chunkOrder
  infer_instance

instance (qv : List Int) : IsTotal StoredChunk (chunkOrder qv) where
  total a b := by
    unfold chunkOrder
    rcases lt_trichotomy (l2sq qv a.vector) (l2sq qv b.vector) with h | h | h
    · exact Or.inl (Or.inl h)
    · rcases Nat.le_total a.id b.id with hid | hid
      · exact Or.inl (Or.inr ⟨h, hid⟩)
      · exact Or.inr (Or.inr ⟨h.symm, hid⟩)
    · exact Or.inr (Or.inl h)

instance (qv : List Int) : IsTrans StoredChunk (chunkOrder qv) where
  trans a b c hab hbc := by
    unfold chunkOrder at *
    rcases hab with hab | ⟨hab, ha⟩ <;> rcases hbc with hbc | ⟨hbc, hb⟩
    · exact Or.inl (hab.trans hbc)
    · exact Or.inl (hbc ▸ hab)
    · exact Or.inl (hab ▸ hbc)
    · exact Or.inr ⟨hab.trans hbc, ha.trans hb⟩

/-- Metadata-filtered similarity search with scores, modelling
`search_kwargs = \x7b"k": k, "filter": \x7b"role": \x7b"$in": allowed\x7d\x7d\x7d`:
the filter restricts the candidate set before the nearest-neighbor ranking,
then the k nearest candidates are returned with their distances. -/
def similaritySearchWithScore (store : List StoredChunk) (qv : List Int)
    (k : Nat) (allowed : List String) : List (StoredChunk × Int) :=
  ((List.insertionSort (chunkOrder qv)
      (store.filter (fun c => allowed.contains c.doc.metadata.role))).take k).map
    (fun c => (c, l2sq qv c.vector))

/-- Observable outcome of one `get_rag_response` call: the chunk list handed
to the generator (`none` when no vector search was performed), whether the
LLM chain was invoked, and the returned string. -/
structure RagTrace where
  retrieved : Option (List StoredChunk)
  generatorCalled : Bool
  answer : String
deriving DecidableEq, Repr

/-- `get_rag_response` from `rag_pipeline.py`: resolve the accessible data
roles; if none, return the fixed denial string without searching; otherwise
retrieve the top 5 chunks under the role filter and invoke the generator on
query and context. `emb` is the embedding model, `generate` the LLM chain. -/
def get_rag_response (store : List StoredChunk) (emb : String → List Int)
    (generate : String → List StoredChunk → String)
    (query : String) (user_role : String) : RagTrace :=
  let accessible_roles := dictGet ROLE_ACCESS_MAPPING user_role
  if accessible_roles.isEmpty then
    ⟨none, false, "Your role does not have access to any data."⟩
  else
    let context := (similaritySearchWithScore store (emb query) 5 accessible_roles).map Prod.fst
    ⟨some context, true, generate query context⟩

/-! ### Authentication (`auth.py`) -/

/-- One entry of the mock user database: assigned role and stored password. -/
structure UserRec where
  role : String
  password : String
deriving DecidableEq, Repr

/-- `MOCK_USERS` from `auth.py`. -/
def MOCK_USERS : List (String × UserRec) :=
  [("tony_s", ⟨"c_level", "password123"⟩),
   ("peter_p", ⟨"engineering", "password123"⟩),
   ("susan_m", ⟨"marketing", "password123"⟩),
   ("john_f", ⟨"finance", "password123"⟩),
   ("lisa_h", ⟨"hr", "password123"⟩),
   ("employee_user", ⟨"employee", "password123"⟩)]

/-- Python `MOCK_USERS.get(username)`. -/
def lookupUser (db : List (String × UserRec)) (username : String) : Option UserRec :=
  (db.find? (fun p => p.1 == username)).map Prod.snd

/-- The authenticated user object returned by `get_current_user`. -/
structure AuthUser where
  username : String
  role : String
deriving DecidableEq, Repr

/-- Outcome of `get_current_user`: either an HTTPException with its status
code and detail string, or the authenticated user. -/
inductive AuthOutcome where
  | httpError (statusCode : Nat) (detail : String)
  | authorized (u : AuthUser)
deriving DecidableEq, Repr

/-- `get_current_user` from `auth.py`: look the username up in the database;
if the user is missing or the stored password differs from the supplied one,
raise 401; otherwise return the user with the stored role. The database is
threaded through and returned so that statelessness is observable. -/
def get_current_user (db : List (String × UserRec)) (username password : String) :
    AuthOutcome × List (String × UserRec) :=
  match lookupUser db username with
  | none => (.httpError 401 "Incorrect username or password", db)
  | some u =>
    if u.password != password then
      (.httpError 401 "Incorrect username or password", db)
    else
      (.authorized ⟨username, u.role⟩, db)

/-! ### Data loading and ingestion (`data_loader.py`) -/

/-- A file on disk, as seen by the walk: its name (with extension) and what
the external parser for its extension yields on it — a list of langchain
documents, or an exception (`Except.error`). For a markdown file this is the
outcome of reading it and running `MarkdownHeaderTextSplitter.split_text`;
for pdf/csv it is `loader.load()`. -/
structure FileEntry where
  name : String
  parse : Except String (List Document)
deriving Repr

mutual
inductive DirTree where
  | node (dname : String) (files : List FileEntry) (subdirs : DirForest)
inductive DirForest where
  | nil
  | cons (head : DirTree) (tail : DirForest)
end

mutual
/-- `os.walk` over a directory tree, top-down: yields the pair of the
directory path (as its component list) and the files directly in it. -/
def walk (parents : List String) : DirTree → List (List String × List FileEntry)
  | .node dname files subdirs =>
    (parents ++ [dname], files) :: walkForest (parents ++ [dname]) subdirs

/-- `os.walk` continued over the list of subdirectories. -/
def walkForest (parents : List String) : DirForest → List (List String × List FileEntry)
  | .nil => []
  | .cons t ts => walk parents t ++ walkForest parents ts
end

/-- `pathlib.Path(dirpath).name`: the last component of a directory path. -/
def pathName (dirpath : List String) : String :=
  (dirpath.getLast?).getD ""

/-- The per-file dispatch of `get_documents_from_path`: markdown files are
read and split (and stamped with `source := filename`), pdf and csv files go
through their loaders, any other extension gets no loader and yields no
documents (`none`). A parser exception propagates — the source wraps none of
these calls in a try/except. -/
def loadFile (f : FileEntry) : Except String (Option (List Document)) :=
  if strEndsWith f.name ".md" then
    (f.parse).map (fun docs =>
      some (docs.map (fun d => { d with metadata := { d.metadata with source := f.name } })))
  else if strEndsWith f.name ".pdf" || strEndsWith f.name ".csv" then
    (f.parse).map some
  else
    .ok none

/-- Python assignment of the role metadata key on a document. -/
def tagRole (role : String) (d : Document) : Document :=
  { d with metadata := { d.metadata with role := role } }

/-- The inner loop of `get_documents_from_path` over the files of one
directory: load each file, and when it yielded a non-empty document list
(`if docs:`), stamp every document with the role of the directory and collect.
An exception from any file aborts the loop. -/
def processFiles (role : String) : List FileEntry → Except String (List Document)
  | [] => .ok []
  | f :: rest => do
    let docsOpt ← loadFile f
    let here :=
      match docsOpt with
      | some docs => if docs.isEmpty then [] else docs.map (tagRole role)
      | none => []
    let tail ← processFiles role rest
    .ok (here ++ tail)

/-- The outer loop of `get_documents_from_path` over the walk entries: the
role for a directory is `pathlib.Path(dirpath).name`, its last component. -/
def collectEntries : List (List String × List FileEntry) → Except String (List Document)
  | [] => .ok []
  | e :: rest => do
    let here ← processFiles (pathName e.1) e.2
    let tail ← collectEntries rest
    .ok (here ++ tail)

/-- `get_documents_from_path` from `data_loader.py`: walk the data root and
collect the role-tagged documents of every file. -/
def get_documents_from_path (tree : DirTree) : Except String (List Document) :=
  collectEntries (walk [] tree)

/-- `RecursiveCharacterTextSplitter.create_documents`: each input text is cut
into pieces by the splitting function, and every piece becomes a document
carrying a copy of the metadata supplied for that text. -/
def create_documents (splitText : String → List String)
    (texts : List String) (metadatas : List DocMeta) : List Document :=
  (texts.zip metadatas).flatMap
    (fun tm => (splitText tm.1).map (fun piece => ⟨piece, tm.2⟩))

/-- `RecursiveCharacterTextSplitter.split_documents`: split the texts of the
documents, pairing each with its own metadata. -/
def split_documents (splitText : String → List String) (docs : List Document) :
    List Document :=
  create_documents splitText (docs.map (fun d => d.text)) (docs.map (fun d => d.metadata))

/-- The report `ingest_data` prints at its end. -/
inductive IngestReport where
  | abortedNoDocs
  | success (totalChunks : Nat)
deriving DecidableEq, Repr

/-- The file-system state touched by `ingest_data`: the persisted Chroma
directory (`none` when the directory does not exist) and the data root. -/
structure FsState where
  chromaDir : Option (List Document)
  dataTree : DirTree

/-- `ingest_data` from `data_loader.py`: first remove the existing Chroma
directory if present (`shutil.rmtree`), then load the documents; if none were
found, abort; otherwise split them into chunks and write the new collection.
A loader exception propagates out of `ingest_data` as well. -/
def ingest_data (splitText : String → List String) (fs : FsState) :
    Except String IngestReport × FsState :=
  let fs1 := if fs.chromaDir.isSome then { fs with chromaDir := none } else fs
  match get_documents_from_path fs.dataTree with
  | .error e => (.error e, fs1)
  | .ok documents =>
    if documents.isEmpty then
      (.ok .abortedNoDocs, fs1)
    else
      let chunked_docs := split_documents splitText documents
      (.ok (.success chunked_docs.length), { fs1 with chromaDir := some chunked_docs })

/-! ### Helper lemmas -/

/-- A key absent from the mapping resolves to the empty list, the default of
`dict.get(key, [])`. -/
theorem dictGet_eq_nil_of_not_key (m : List (String × List String)) (k : String)
    (h : k ∉ mapKeys m) : dictGet m k = [] := by
  have hf : m.find? (fun p => p.1 == k) = none := by
    rw [List.find?_eq_none]
    intro x hx
    simp only [beq_iff_eq]
    intro hxk
    exact h (by simp only [mapKeys, List.mem_map]; exact ⟨x, hx, hxk⟩)
  simp [dictGet, hf]

/-- Every chunk delivered by the filtered similarity search comes from the
store and passes the role filter. -/
theorem mem_similaritySearchWithScore (store : List StoredChunk) (qv : List Int)
    (k : Nat) (allowed : List String) (p : StoredChunk × Int)
    (hp : p ∈ similaritySearchWithScore store qv k allowed) :
    p.1 ∈ store ∧ p.1.doc.metadata.role ∈ allowed := by
  unfold similaritySearchWithScore at hp
  rcases List.mem_map.mp hp with ⟨c, hc, rfl⟩
  have hc2 := List.mem_of_mem_take hc
  have hc3 := (List.mem_insertionSort (chunkOrder qv)).mp hc2
  rcases List.mem_filter.mp hc3 with ⟨hcs, hcr⟩
  refine ⟨hcs, ?_⟩
  simpa using hcr

/-! ### Claim theorems -/

/-- Claim C1 (zero-leakage invariant): for every store, embedding model,
generator, caller role and query, every chunk in the context handed to the
generator by `get_rag_response` has its role metadata inside the accessible
set resolved for the caller role from `ROLE_ACCESS_MAPPING`. The filter is a
hard constraint of the search itself, so this holds for every store — also
when the nearest neighbor of the whole collection carries a disallowed
role. -/
theorem zero_leakage_invariant (store : List StoredChunk) (emb : String → List Int)
    (generate : String → List StoredChunk → String) (query user_role : String)
    (ctx : List StoredChunk)
    (h : (get_rag_response store emb generate query user_role).retrieved = some ctx) :
    ∀ c ∈ ctx, c.doc.metadata.role ∈ dictGet ROLE_ACCESS_MAPPING user_role := by
  intro c hc
  by_cases hA : (dictGet ROLE_ACCESS_MAPPING user_role).isEmpty
  · simp [get_rag_response, hA] at h
  · simp only [get_rag_response, hA, Bool.false_eq_true, if_false, Option.some.injEq] at h
    rw [← h] at hc
    rcases List.mem_map.mp hc with ⟨p, hp, rfl⟩
    exact (mem_similaritySearchWithScore _ _ _ _ p hp).2

/-- The finance-tagged chunk: the exact nearest neighbor of the zero query
vector, yet invisible to an hr caller. -/
def chunkFinance : StoredChunk := ⟨0, ⟨"quarterly numbers", ⟨"finance", "report.md"⟩⟩, [0]⟩

/-- A general-tagged chunk, farther from the query vector. -/
def chunkGeneral : StoredChunk := ⟨1, ⟨"holiday policy", ⟨"general", "policy.md"⟩⟩, [10]⟩

/-- Witness for C1: with a store where the finance chunk is the single
nearest neighbor, the hr caller receives only the general chunk, whose role
is in the accessible set of hr. -/
theorem zero_leakage_invariant_witness :
    chunkGeneral.doc.metadata.role ∈ dictGet ROLE_ACCESS_MAPPING "hr" :=
  zero_leakage_invariant [chunkFinance, chunkGeneral] (fun _ => [0])
    (fun _ _ => "llm answer") "What are the quarterly numbers?" "hr"
    [chunkGeneral] rfl chunkGeneral (List.Mem.head _)

/-- Claim C2 (fail-closed on unknown role): a caller role that is not a key
of `ROLE_ACCESS_MAPPING` receives, for every query, exactly the fixed denial
trace — the answer is the denial string, no vector search was performed
(`retrieved = none`) and the generator was not called. -/
theorem fail_closed_unknown_role (store : List StoredChunk) (emb : String → List Int)
    (generate : String → List StoredChunk → String) (query user_role : String)
    (h : user_role ∉ mapKeys ROLE_ACCESS_MAPPING) :
    get_rag_response store emb generate query user_role =
      ⟨none, false, "Your role does not have access to any data."⟩ := by
  have hnil := dictGet_eq_nil_of_not_key ROLE_ACCESS_MAPPING user_role h
  simp [get_rag_response, hnil]

/-- Witness for C2: the unknown role "guest" is denied without any search. -/
theorem fail_closed_unknown_role_witness :
    get_rag_response [chunkFinance, chunkGeneral] (fun _ => [0])
      (fun _ _ => "llm answer") "Tell me everything" "guest" =
      ⟨none, false, "Your role does not have access to any data."⟩ :=
  fail_closed_unknown_role _ _ _ _ _ (by decide)

/-- Claim C7 (access-policy invariant): every caller role that is a key of
the static mapping has "general" in its accessible set and, when a content
role of the same name exists among the known content roles, also its own
same-named content role; every caller role that is not a key resolves to the
empty set. -/
theorem access_policy_invariant (role : String) :
    (role ∈ mapKeys ROLE_ACCESS_MAPPING →
      "general" ∈ dictGet ROLE_ACCESS_MAPPING role ∧
      (role ∈ knownContentRoles → role ∈ dictGet ROLE_ACCESS_MAPPING role)) ∧
    (role ∉ mapKeys ROLE_ACCESS_MAPPING → dictGet ROLE_ACCESS_MAPPING role = []) := by
  constructor
  · intro h
    have hcases : role = "c_level" ∨ role = "engineering" ∨ role = "marketing" ∨
        role = "finance" ∨ role = "hr" ∨ role = "employee" := by
      simpa [mapKeys, ROLE_ACCESS_MAPPING] using h
    rcases hcases with rfl | rfl | rfl | rfl | rfl | rfl <;> exact ⟨by decide, by decide⟩
  · intro h
    exact dictGet_eq_nil_of_not_key _ _ h

/-- Witness for C7: the key "hr" gets "general" and its own bucket; the
unknown role "intern" resolves to the empty set. -/
theorem access_policy_invariant_witness :
    "general" ∈ dictGet ROLE_ACCESS_MAPPING "hr" ∧
    dictGet ROLE_ACCESS_MAPPING "intern" = [] :=
  ⟨((access_policy_invariant "hr").1 (by decide)).1,
   (access_policy_invariant "intern").2 (by decide)⟩

/-- A file name the loader dispatch recognizes: markdown, pdf or csv. -/
def recognizedExt (n : String) : Bool :=
  strEndsWith n ".md" || strEndsWith n ".pdf" || strEndsWith n ".csv"

/-- A recognized file whose parser raises makes `loadFile` raise the same
exception. -/
theorem loadFile_error (f : FileEntry) (msg : String)
    (hrec : recognizedExt f.name = true) (hp : f.parse = .error msg) :
    loadFile f = .error msg := by
  unfold recognizedExt at hrec
  unfold loadFile
  by_cases h1 : strEndsWith f.name ".md"
  · simp [h1, hp, Except.map]
  · simp only [h1, Bool.false_or] at hrec
    simp [h1, hrec, hp, Except.map]

/-- A parser exception from any recognized file in the directory aborts the
whole per-directory loop: it never returns an `ok` result. -/
theorem processFiles_not_ok (role : String) :
    ∀ (files : List FileEntry),
    (∃ f ∈ files, recognizedExt f.name = true ∧ ∃ msg, f.parse = .error msg) →
    ∀ ds, processFiles role files ≠ .ok ds := by
  intro files
  induction files with
  | nil => rintro ⟨f, hf, _⟩ ds; simp at hf
  | cons g rest ih =>
    rintro ⟨f, hf, hrec, msg, hmsg⟩ ds h
    rcases List.mem_cons.mp hf with rfl | hf'
    · rw [processFiles, loadFile_error f msg hrec hmsg] at h
      simp [Bind.bind, Except.bind] at h
    · cases hload : loadFile g with
      | error e => rw [processFiles, hload] at h; simp [Bind.bind, Except.bind] at h
      | ok docsOpt =>
        rw [processFiles, hload] at h
        cases htail : processFiles role rest with
        | error e => rw [htail] at h; simp [Bind.bind, Except.bind] at h
        | ok tailDocs => exact ih ⟨f, hf', hrec, msg, hmsg⟩ tailDocs htail

/-- A parser exception from any recognized file in any visited directory
aborts the whole collection loop. -/
theorem collectEntries_not_ok :
    ∀ (entries : List (List String × List FileEntry)),
    (∃ e ∈ entries, ∃ f ∈ e.2, recognizedExt f.name = true ∧ ∃ msg, f.parse = .error msg) →
    ∀ ds, collectEntries entries ≠ .ok ds := by
  intro entries
  induction entries with
  | nil => rintro ⟨e, he, _⟩ ds; simp at he
  | cons g rest ih =>
    rintro ⟨e, he, f, hf, hrec, msg, hmsg⟩ ds h
    rcases List.mem_cons.mp he with rfl | he'
    · cases hhere : processFiles (pathName e.1) e.2 with
      | error er => rw [collectEntries, hhere] at h; simp [Bind.bind, Except.bind] at h
      | ok hereDocs =>
        exact processFiles_not_ok _ _ ⟨f, hf, hrec, msg, hmsg⟩ hereDocs hhere
    · cases hhere : processFiles (pathName g.1) g.2 with
      | error er => rw [collectEntries, hhere] at h; simp [Bind.bind, Except.bind] at h
      | ok hereDocs =>
        rw [collectEntries, hhere] at h
        cases htail : collectEntries rest with
        | error er => rw [htail] at h; simp [Bind.bind, Except.bind] at h
        | ok tailDocs => exact ih ⟨e, he', f, hf, hrec, msg, hmsg⟩ tailDocs htail

/-- Claim C4 (per-file failure isolation), corrected: the walk has no
per-file exception handler, so a parse failure of a single recognized source
file aborts the entire walk — `get_documents_from_path` never returns a
document list in that case, and the units of every other file are lost with
it. -/
theorem parse_failure_aborts_walk (tree : DirTree)
    (h : ∃ e ∈ walk [] tree, ∃ f ∈ e.2,
      recognizedExt f.name = true ∧ ∃ msg, f.parse = .error msg) :
    ∀ ds, get_documents_from_path tree ≠ .ok ds :=
  collectEntries_not_ok (walk [] tree) h

/-- A markdown file that parses into one unit. -/
def goodMdFile : FileEntry := ⟨"g.md", .ok [⟨"good text", ⟨"", ""⟩⟩]⟩

/-- A pdf file whose loader raises. -/
def badPdfFile : FileEntry := ⟨"a.pdf", .error "bad pdf"⟩

/-- A data root whose hr directory holds one failing pdf next to one good
markdown file. -/
def corpusWithBadFile : DirTree :=
  .node "data" [] (.cons (.node "hr" [badPdfFile, goodMdFile] .nil) .nil)

/-- Counterexample for C4 as stated: the good markdown file alone yields a
unit, but as soon as the failing pdf sits next to it the whole walk returns
the loader error and no unit of the good file survives — the failing file is
not skipped. -/
theorem parse_failure_aborts_walk_counterexample :
    processFiles "hr" [goodMdFile] = .ok [⟨"good text", ⟨"hr", "g.md"⟩⟩] ∧
    get_documents_from_path corpusWithBadFile = .error "bad pdf" :=
  ⟨rfl, rfl⟩

/-- Witness for the corrected C4: the bad pdf makes the whole walk of the
mixed corpus fail. -/
theorem parse_failure_aborts_walk_witness :
    get_documents_from_path corpusWithBadFile ≠ .ok [⟨"good text", ⟨"hr", "g.md"⟩⟩] :=
  parse_failure_aborts_walk corpusWithBadFile
    ⟨(["data", "hr"], [badPdfFile, goodMdFile]), List.Mem.tail _ (List.Mem.head _),
      badPdfFile, List.Mem.head _, rfl, "bad pdf", rfl⟩ _

/-- Every document the per-directory loop returns carries the role it was
called with. -/
theorem processFiles_ok_role (role : String) :
    ∀ (files : List FileEntry) (ds : List Document),
    processFiles role files = .ok ds → ∀ d ∈ ds, d.metadata.role = role := by
  intro files
  induction files with
  | nil =>
    intro ds h d hd
    simp only [processFiles, Except.ok.injEq] at h
    subst h
    simp at hd
  | cons f rest ih =>
    intro ds h d hd
    cases hload : loadFile f with
    | error e => rw [processFiles, hload] at h; simp [Bind.bind, Except.bind] at h
    | ok docsOpt =>
      rw [processFiles, hload] at h
      cases htail : processFiles role rest with
      | error e => rw [htail] at h; simp [Bind.bind, Except.bind] at h
      | ok tailDocs =>
        rw [htail] at h
        simp only [Bind.bind, Except.bind, Except.ok.injEq] at h
        subst h
        rcases List.mem_append.mp hd with hd' | hd'
        · cases docsOpt with
          | none => simp at hd'
          | some docs =>
            by_cases hemp : docs.isEmpty <;> simp only [hemp, if_true, if_false] at hd'
            · simp at hd'
            · rcases List.mem_map.mp hd' with ⟨d0, _, rfl⟩
              rfl
        · exact ih tailDocs htail d hd'

/-- The collection loop decomposes directory by directory: on success its
output is the concatenation, in walk order, of one slice per visited
directory; the slice of a directory is exactly what the per-directory loop
parses from the files directly inside that directory, and every unit in the
slice is stamped with the name of that directory. -/
theorem collectEntries_parts :
    ∀ (entries : List (List String × List FileEntry)) (ds : List Document),
    collectEntries entries = .ok ds →
    ∃ parts : List (List Document), ds = parts.flatten ∧
      List.Forall₂ (fun e part =>
        processFiles (pathName e.1) e.2 = .ok part ∧
        ∀ d ∈ part, d.metadata.role = pathName e.1) entries parts := by
  intro entries
  induction entries with
  | nil =>
    intro ds h
    simp only [collectEntries, Except.ok.injEq] at h
    subst h
    exact ⟨[], rfl, List.Forall₂.nil⟩
  | cons g rest ih =>
    intro ds h
    cases hhere : processFiles (pathName g.1) g.2 with
    | error e => rw [collectEntries, hhere] at h; simp [Bind.bind, Except.bind] at h
    | ok hereDocs =>
      rw [collectEntries, hhere] at h
      cases htail : collectEntries rest with
      | error e => rw [htail] at h; simp [Bind.bind, Except.bind] at h
      | ok tailDocs =>
        rw [htail] at h
        simp only [Bind.bind, Except.bind, Except.ok.injEq] at h
        subst h
        rcases ih tailDocs htail with ⟨parts, hflat, hforall⟩
        refine ⟨hereDocs :: parts, ?_, ?_⟩
        · rw [List.flatten_cons, ← hflat]
        · exact List.Forall₂.cons ⟨hhere, processFiles_ok_role _ _ _ hhere⟩ hforall

/-- Claim C5 (role tagging), corrected: the units produced by
`get_documents_from_path` decompose, in walk order, into one slice per
visited directory, the slice of each directory being exactly what the
per-directory loop parses from the files directly inside that directory; and
every unit of a slice is stamped with `pathlib.Path(dirpath).name` of that
directory — so the role of every unit is the name of the directory that
directly contains its file. This equals the immediate subdirectory of the
data root only for files lying directly in that subdirectory. -/
theorem role_tag_is_containing_dir_name (tree : DirTree) (docs : List Document)
    (h : get_documents_from_path tree = .ok docs) :
    ∃ parts : List (List Document), docs = parts.flatten ∧
      List.Forall₂ (fun e part =>
        processFiles (pathName e.1) e.2 = .ok part ∧
        ∀ d ∈ part, d.metadata.role = pathName e.1) (walk [] tree) parts :=
  collectEntries_parts (walk [] tree) docs h

/-- A markdown file nested one level deeper than the role directories. -/
def nestedFile : FileEntry := ⟨"n.md", .ok [⟨"nested text", ⟨"", ""⟩⟩]⟩

/-- A data root whose hr subdirectory holds an archive subdirectory with a
file in it. -/
def nestedCorpus : DirTree :=
  .node "data" []
    (.cons (.node "hr" [] (.cons (.node "archive" [nestedFile] .nil) .nil)) .nil)

/-- Counterexample for C5 as stated: the file n.md lies under the immediate
subdirectory "hr" of the root (its dirpath is data/hr/archive), yet the unit
produced from it is stamped "archive", the deepest directory name, not
"hr". -/
theorem role_tag_counterexample :
    (["data", "hr", "archive"], [nestedFile]) ∈ walk [] nestedCorpus ∧
    ["data", "hr", "archive"][1]? = some "hr" ∧
    get_documents_from_path nestedCorpus = .ok [⟨"nested text", ⟨"archive", "n.md"⟩⟩] ∧
    ("archive" : String) ≠ "hr" :=
  ⟨List.Mem.tail _ (List.Mem.tail _ (List.Mem.head _)), rfl, rfl, by decide⟩

/-- Witness for the corrected C5 on the nested corpus: the walk visits three
directories; the slices of data and hr are empty, and the unit of n.md sits
in the slice of its own containing directory archive, stamped "archive". -/
theorem role_tag_is_containing_dir_name_witness :
    ∃ parts : List (List Document),
      [Document.mk "nested text" ⟨"archive", "n.md"⟩] = parts.flatten ∧
      List.Forall₂ (fun e part =>
        processFiles (pathName e.1) e.2 = .ok part ∧
        ∀ d ∈ part, d.metadata.role = pathName e.1) (walk [] nestedCorpus) parts :=
  role_tag_is_containing_dir_name nestedCorpus
    [⟨"nested text", ⟨"archive", "n.md"⟩⟩] rfl

/-- Claim C3 (empty-corpus atomicity), corrected: when the loader finds no
documents, `ingest_data` aborts with the no-documents report and publishes no
new collection — but because the persisted Chroma directory is removed
unconditionally before the documents are loaded, the final state holds no
index at all; a previously good index is not preserved. -/
theorem empty_corpus_aborts (splitText : String → List String) (fs : FsState)
    (h : get_documents_from_path fs.dataTree = .ok []) :
    (ingest_data splitText fs).1 = .ok .abortedNoDocs ∧
    (ingest_data splitText fs).2.chromaDir = none := by
  cases hc : fs.chromaDir <;> simp [ingest_data, h, hc]

/-- The chunk of the previously good index. -/
def priorChunk : Document := ⟨"old chunk", ⟨"general", "old.md"⟩⟩

/-- A file-system state with a previously persisted index and an empty data
root. -/
def priorState : FsState := ⟨some [priorChunk], .node "data" [] .nil⟩

/-- Counterexample for C3 as stated: with a good prior index and an empty
corpus, ingestion aborts and reports the condition, but the prior index is
destroyed, not left untouched. -/
theorem empty_corpus_counterexample :
    priorState.chromaDir = some [priorChunk] ∧
    (ingest_data (fun t => [t]) priorState).1 = .ok .abortedNoDocs ∧
    (ingest_data (fun t => [t]) priorState).2.chromaDir = none ∧
    (ingest_data (fun t => [t]) priorState).2.chromaDir ≠ priorState.chromaDir :=
  ⟨rfl, rfl, rfl, by decide⟩

/-- Witness for the corrected C3 at the concrete empty-corpus state. -/
theorem empty_corpus_aborts_witness :
    (ingest_data (fun t => [t]) priorState).1 = .ok .abortedNoDocs ∧
    (ingest_data (fun t => [t]) priorState).2.chromaDir = none :=
  empty_corpus_aborts (fun t => [t]) priorState rfl

/-- Claim C6 (metadata propagation): every chunk the splitter produces from a
parent document carries exactly the role and source metadata of that parent —
`split_documents` pairs each text with its own metadata and stamps every
piece with an unmodified copy of it. -/
theorem splitter_metadata_propagation (splitText : String → List String)
    (docs : List Document) (c : Document)
    (hc : c ∈ split_documents splitText docs) :
    ∃ parent ∈ docs, c.metadata.role = parent.metadata.role ∧
      c.metadata.source = parent.metadata.source := by
  unfold split_documents create_documents at hc
  rw [List.zip_map'] at hc
  rcases List.mem_flatMap.mp hc with ⟨tm, htm, hcm⟩
  rcases List.mem_map.mp htm with ⟨parent, hparent, rfl⟩
  rcases List.mem_map.mp hcm with ⟨piece, _, rfl⟩
  exact ⟨parent, hparent, rfl, rfl⟩

/-- A parent document about to be split into two chunks. -/
def parentDoc : Document := ⟨"alpha beta", ⟨"finance", "report.md"⟩⟩

/-- Witness for C6: the first of the two chunks cut from the parent carries
the parent metadata. -/
theorem splitter_metadata_propagation_witness :
    ∃ parent ∈ [parentDoc],
      (Document.mk "alpha" ⟨"finance", "report.md"⟩).metadata.role = parent.metadata.role ∧
      (Document.mk "alpha" ⟨"finance", "report.md"⟩).metadata.source = parent.metadata.source :=
  splitter_metadata_propagation (fun _ => ["alpha", "beta"]) [parentDoc]
    ⟨"alpha", ⟨"finance", "report.md"⟩⟩ (by decide)

/-- Claim C8 (ranking determinism): for a fixed store and filter, two runs of
the retrieval step on embeddings of the same query text return the same
chunks, in the same order, with the same scores; the result is ordered by
ascending distance (descending similarity) with ties broken deterministically
by chunk id, and each reported score is the distance of that chunk to the
query vector. -/
theorem ranking_determinism (store : List StoredChunk) (v1 v2 : List Int)
    (k : Nat) (allowed : List String) (h : v1 = v2) :
    similaritySearchWithScore store v1 k allowed =
      similaritySearchWithScore store v2 k allowed ∧
    List.Sorted
      (fun p q : StoredChunk × Int => p.2 < q.2 ∨ (p.2 = q.2 ∧ p.1.id ≤ q.1.id))
      (similaritySearchWithScore store v1 k allowed) ∧
    ∀ p ∈ similaritySearchWithScore store v1 k allowed, p.2 = l2sq v1 p.1.vector := by
  subst h
  refine ⟨rfl, ?_, ?_⟩
  · have hs := List.sorted_insertionSort (chunkOrder v1)
      (store.filter (fun c => allowed.contains c.doc.metadata.role))
    have ht := List.Pairwise.sublist (List.take_sublist k _) hs
    exact List.Pairwise.map _ (fun a b hab => hab) ht
  · intro p hp
    unfold similaritySearchWithScore at hp
    rcases List.mem_map.mp hp with ⟨c, _, rfl⟩
    rfl

/-- Witness for C8 at a concrete two-chunk store. -/
theorem ranking_determinism_witness :
    List.Sorted
      (fun p q : StoredChunk × Int => p.2 < q.2 ∨ (p.2 = q.2 ∧ p.1.id ≤ q.1.id))
      (similaritySearchWithScore [chunkFinance, chunkGeneral] [0] 5
        ["finance", "general"]) :=
  (ranking_determinism [chunkFinance, chunkGeneral] [0] [0] 5
    ["finance", "general"] rfl).2.1

/-- Claim C9 (implicit): every successfully authenticated caller has a role
that is a key of `ROLE_ACCESS_MAPPING` with a non-empty accessible list, so
`get_rag_response` never takes the access-denial branch for it: a retrieval
is always performed and the generator is always called. -/
theorem authenticated_roles_never_denied (username password : String) (u : AuthUser)
    (h : (get_current_user MOCK_USERS username password).1 = .authorized u) :
    u.role ∈ mapKeys ROLE_ACCESS_MAPPING ∧
    dictGet ROLE_ACCESS_MAPPING u.role ≠ [] ∧
    ∀ (store : List StoredChunk) (emb : String → List Int)
      (generate : String → List StoredChunk → String) (query : String),
      (get_rag_response store emb generate query u.role).retrieved.isSome = true ∧
      (get_rag_response store emb generate query u.role).generatorCalled = true := by
  cases hl : lookupUser MOCK_USERS username with
  | none => simp [get_current_user, hl] at h
  | some urec =>
    simp only [get_current_user, hl] at h
    by_cases hp : (urec.password != password) = true
    · rw [if_pos hp] at h
      simp at h
    · rw [if_neg hp] at h
      have hu : AuthOutcome.authorized ⟨username, urec.role⟩ = .authorized u := h
      injection hu with hu'
      have hrole : u.role = urec.role := by rw [← hu']
      rw [hrole]
      rcases Option.map_eq_some'.mp hl with ⟨x, hfind, hx⟩
      have hmem := List.mem_of_find?_eq_some hfind
      have hcases : x = ("tony_s", ⟨"c_level", "password123"⟩) ∨
          x = ("peter_p", ⟨"engineering", "password123"⟩) ∨
          x = ("susan_m", ⟨"marketing", "password123"⟩) ∨
          x = ("john_f", ⟨"finance", "password123"⟩) ∨
          x = ("lisa_h", ⟨"hr", "password123"⟩) ∨
          x = ("employee_user", ⟨"employee", "password123"⟩) := by
        simpa [MOCK_USERS] using hmem
      subst hx
      rcases hcases with rfl | rfl | rfl | rfl | rfl | rfl <;>
        exact ⟨by decide, by decide, fun store emb generate query => ⟨rfl, rfl⟩⟩

/-- Witness for C9: the engineering user authenticates and the pipeline
performs retrieval and generation for the engineering role. -/
theorem authenticated_roles_never_denied_witness :
    (get_rag_response [chunkGeneral] (fun _ => [0]) (fun _ _ => "llm answer")
      "What is the architecture?" (AuthUser.mk "peter_p" "engineering").role).generatorCalled
      = true :=
  ((authenticated_roles_never_denied "peter_p" "password123"
    ⟨"peter_p", "engineering"⟩ rfl).2.2 [chunkGeneral] (fun _ => [0])
    (fun _ _ => "llm answer") "What is the architecture?").2

/-- A username lookup fails exactly when the username is not a key of the
database. -/
theorem lookupUser_eq_none_iff (db : List (String × UserRec)) (username : String) :
    lookupUser db username = none ↔ username ∉ db.map Prod.fst := by
  unfold lookupUser
  rw [Option.map_eq_none', List.find?_eq_none]
  constructor
  · intro h hmem
    rcases List.mem_map.mp hmem with ⟨x, hx, hxk⟩
    have hfalse := h x hx
    simp only [beq_iff_eq] at hfalse
    exact hfalse hxk
  · intro h x hx
    simp only [beq_iff_eq]
    intro hxk
    exact h (List.mem_map.mpr ⟨x, hx, hxk⟩)

/-- A successful lookup returns a record of a key of the database. -/
theorem lookupUser_eq_some_key (db : List (String × UserRec)) (username : String)
    (u : UserRec) (h : lookupUser db username = some u) :
    username ∈ db.map Prod.fst := by
  rcases Option.map_eq_some'.mp h with ⟨x, hfind, hx⟩
  have hmem := List.mem_of_find?_eq_some hfind
  have hpred := List.find?_some hfind
  simp only [beq_iff_eq] at hpred
  exact List.mem_map.mpr ⟨x, hmem, hpred⟩

/-- Evaluation of `get_current_user` when the username is unknown. -/
theorem get_current_user_eq_none (db : List (String × UserRec)) (username password : String)
    (h : lookupUser db username = none) :
    get_current_user db username password =
      (.httpError 401 "Incorrect username or password", db) := by
  unfold get_current_user
  rw [h]

/-- Evaluation of `get_current_user` when the username is found. -/
theorem get_current_user_eq_some (db : List (String × UserRec)) (username password : String)
    (u : UserRec) (h : lookupUser db username = some u) :
    get_current_user db username password =
      if u.password != password then
        (.httpError 401 "Incorrect username or password", db)
      else
        (.authorized ⟨username, u.role⟩, db) := by
  unfold get_current_user
  rw [h]

/-- Claim C10 (implicit): `get_current_user` raises the 401 HTTPException if
and only if the supplied username is not a key of `MOCK_USERS` or the
supplied password differs from the stored plaintext password of that user;
otherwise it returns the user with the stored role; and the mock user
database is unchanged by the call. -/
theorem auth_401_iff (username password : String) :
    ((get_current_user MOCK_USERS username password).1 =
        .httpError 401 "Incorrect username or password" ↔
      (username ∉ MOCK_USERS.map Prod.fst ∨
        ∃ u, lookupUser MOCK_USERS username = some u ∧ u.password ≠ password)) ∧
    (∀ u, lookupUser MOCK_USERS username = some u → u.password = password →
      (get_current_user MOCK_USERS username password).1 = .authorized ⟨username, u.role⟩) ∧
    (get_current_user MOCK_USERS username password).2 = MOCK_USERS := by
  cases hl : lookupUser MOCK_USERS username with
  | none =>
    rw [get_current_user_eq_none _ _ password hl]
    refine ⟨?_, ?_, rfl⟩
    · constructor
      · intro _
        exact Or.inl ((lookupUser_eq_none_iff _ _).mp hl)
      · intro _
        rfl
    · intro u hu hpw
      simp at hu
  | some urec =>
    rw [get_current_user_eq_some _ _ password urec hl]
    by_cases hp : (urec.password != password) = true
    · have hpne : urec.password ≠ password := by simpa using hp
      rw [if_pos hp]
      refine ⟨?_, ?_, rfl⟩
      · constructor
        · intro _
          exact Or.inr ⟨urec, rfl, hpne⟩
        · intro _
          rfl
      · intro u hu hpw
        injection hu with hu'
        subst hu'
        exact absurd hpw hpne
    · have hpeq : urec.password = password := by simpa using hp
      rw [if_neg hp]
      refine ⟨?_, ?_, rfl⟩
      · constructor
        · intro habs
          simp at habs
        · rintro (hkey | ⟨u, hu, hune⟩)
          · exact absurd (lookupUser_eq_some_key _ _ _ hl) hkey
          · injection hu with hu'
            subst hu'
            exact absurd hpeq hune
      · intro u hu hpw
        injection hu with hu'
        subst hu'
        rfl

/-- Witness for C10: the c_level user with the right password is authorized
with the stored role, and the database is unchanged. -/
theorem auth_401_iff_witness :
    (get_current_user MOCK_USERS "tony_s" "password123").1 =
      .authorized ⟨"tony_s", "c_level"⟩ :=
  (auth_401_iff "tony_s" "password123").2.1 ⟨"c_level", "password123"⟩ rfl rfl
